import Mathlib

/-!
Shallow embedding of the reconciliation core of the litellm Terraform
provider (`resource_credential_crud.go`, `resource_model_crud.go`).

External collaborators (HTTP transport, JSON decoding of responses, the
remote server) are modelled as oracles: a per-attempt outcome describes
what the transport/decoding layer reported on that call.  Durations are
natural numbers of milliseconds.  Errors are their message strings
(`Option String`, `none` = Go `nil`).
-/

namespace LitellmProvider

/-! ### String helpers (models of Go `strings` functions) -/

/-- `beginsWith s pat`: the char list `s` starts with `pat`
(model of Go `strings.HasPrefix` on char lists). -/
def beginsWith : List Char → List Char → Bool
  | _, [] => true
  | [], _ :: _ => false
  | a :: as, b :: bs => a = b && beginsWith as bs

/-- `occursIn pat s`: `pat` occurs as a contiguous substring of `s`. -/
def occursIn (pat : List Char) : List Char → Bool
  | [] => pat.isEmpty
  | a :: as => beginsWith (a :: as) pat || occursIn pat as

/-- Model of Go `strings.Contains s pat`. -/
def strContains (s pat : String) : Bool := occursIn pat.toList s.toList

/-- Model of Go `strings.HasPrefix s pat`. -/
def strHasPre (s pat : String) : Bool := beginsWith s.toList pat.toList

/-- Whitespace characters trimmed by Go `strings.TrimSpace` (ASCII part). -/
def isSpaceChar (c : Char) : Bool := c = ' ' || c = '\t' || c = '\n' || c = '\r'

/-- Model of Go `strings.TrimSpace`. -/
def trimSpace (s : String) : String :=
  let l := s.toList.dropWhile isSpaceChar
  String.mk ((l.reverse.dropWhile isSpaceChar).reverse)

/-! ### Generic retry loop

Both Go reconcilers (`retryCredentialRead`, `retryModelRead`) are the same
`for i := 0; i < maxRetries; i++` loop; they differ only in the per-attempt
step (read + optional identifier restoration), the retryability test on the
error message, and the initial delay.  The loop is embedded once, with the
explicit fuel argument equal to `maxRetries - i`. -/

/-- Trace of one reconciliation call: final resource data, returned error,
sleeps performed before the first attempt, sleeps performed between
attempts (in order), and the number of read attempts performed. -/
structure RetryResult (σ : Type) where
  d : σ
  err : Option String
  presleeps : List Nat
  sleeps : List Nat
  attempts : Nat
deriving Repr, DecidableEq

/-- The backoff update of both Go loops:
`delay *= 2; if delay > maxDelay { delay = maxDelay }` with
`maxDelay = 10 * time.Second`. -/
def nextBackoffDelay (delay : Nat) : Nat :=
  if 10000 < delay * 2 then 10000 else delay * 2

/-- The sequence of `n` successive backoff delays starting from `delay`. -/
def backoffSeq (delay : Nat) : Nat → List Nat
  | 0 => []
  | n + 1 => delay :: backoffSeq (nextBackoffDelay delay) n

/-- The common retry loop body of `retryCredentialRead` and
`retryModelRead`.  `step i d` is the whole i-th read attempt (read plus, for
credentials, the restore-identifier-and-synthesize-error block); `retryable`
is the loop's test deciding whether the attempt's error is retried.
`fuel` must be `maxRetries - i`; the top-level wrappers call it so. -/
def retryReadLoop {σ : Type} (step : Nat → σ → σ × Option String)
    (retryable : String → Bool) (maxRetries : Nat) :
    Nat → Nat → σ → Option String → Nat → RetryResult σ
  | _, _, d, err, 0 => ⟨d, err, [], [], 0⟩
  | i, delay, d, _, fuel + 1 =>
    match step i d with
    | (d2, none) => ⟨d2, none, [], [], 1⟩
    | (d2, some msg) =>
      if retryable msg then
        if i < maxRetries - 1 then
          let r := retryReadLoop step retryable maxRetries (i + 1)
            (nextBackoffDelay delay) d2 (some msg) fuel
          ⟨r.d, r.err, [], delay :: r.sleeps, r.attempts + 1⟩
        else
          let r := retryReadLoop step retryable maxRetries (i + 1)
            delay d2 (some msg) fuel
          ⟨r.d, r.err, [], r.sleeps, r.attempts + 1⟩
      else ⟨d2, some msg, [], [], 1⟩

/-! ### Credential resource (`resource_credential_crud.go`) -/

/-- The declarative field set of the credential resource, as read/written by
`resourceLiteLLMCredentialRead`.  Values of the two `map[string]interface{}`
fields are opaque; they are modelled as association lists of strings. -/
structure CredState where
  id : String
  credential_name : String
  credential_info : List (String × String)
  credential_values : List (String × String)
  model_id : String
deriving Repr, DecidableEq

/-- Decoded body of a successful credential GET. -/
structure CredentialResponse where
  credential_name : String
  credential_info : List (String × String)
deriving Repr, DecidableEq

/-- Outcome of one credential GET as seen by
`resourceLiteLLMCredentialRead`: a transport error from `MakeRequest`, an
HTTP 404, an error from `handleCredentialAPIResponse`, or a decoded body. -/
inductive CredReadOutcome where
  | transportErr (msg : String)
  | notFound404
  | handleErr (msg : String)
  | success (resp : CredentialResponse)
deriving Repr, DecidableEq

/-- The endpoint string built by `resourceLiteLLMCredentialRead`. -/
def credReadEndpoint (d : CredState) : String :=
  let endpoint := "/credentials/by_name/" ++ d.id
  if d.model_id ≠ "" then endpoint ++ "?model_id=" ++ d.model_id else endpoint

/-- Embedding of `resourceLiteLLMCredentialRead`.  `world` maps the
endpoint to the outcome of the GET. -/
def resourceLiteLLMCredentialRead (world : String → CredReadOutcome)
    (d : CredState) : CredState × Option String :=
  match world (credReadEndpoint d) with
  | .transportErr msg => (d, some ("failed to read credential: " ++ msg))
  | .notFound404 => ({ d with id := "" }, none)
  | .handleErr msg =>
    if msg = "credential_not_found" then ({ d with id := "" }, none)
    else (d, some ("failed to read credential: " ++ msg))
  | .success resp =>
    ({ d with credential_name := resp.credential_name,
              credential_info := resp.credential_info }, none)

/-- One attempt of `retryCredentialRead`: the read followed by the
`if err == nil && d.Id() == "" { d.SetId(origID); err = credential_not_found }`
block. -/
def credRetryStep (worlds : Nat → String → CredReadOutcome) (origID : String)
    (i : Nat) (d : CredState) : CredState × Option String :=
  let a := resourceLiteLLMCredentialRead (worlds i) d
  if a.2 = none ∧ a.1.id = "" then
    ({ a.1 with id := origID }, some "credential_not_found")
  else a

/-- Embedding of `retryCredentialRead` (initial delay 1s, cap 10s; the
identifier recorded on entry is the restore target). -/
def retryCredentialRead (worlds : Nat → String → CredReadOutcome)
    (d : CredState) (maxRetries : Nat) : RetryResult CredState :=
  retryReadLoop (credRetryStep worlds d.id)
    (fun msg => strContains msg "credential_not_found")
    maxRetries 0 1000 d none maxRetries

/-- External outcomes consumed by `resourceLiteLLMCredentialCreate`: the
POST's transport outcome, its decode outcome, and the per-attempt read
worlds for the retry phase. -/
structure CredEnv where
  writeTransport : Option String
  writeHandle : Option String
  readWorlds : Nat → String → CredReadOutcome

/-- Embedding of `resourceLiteLLMCredentialCreate`: on write success the
identifier is set to the credential name and `retryCredentialRead` runs
with a budget of 5. -/
def resourceLiteLLMCredentialCreate (env : CredEnv) (d : CredState) :
    RetryResult CredState :=
  match env.writeTransport with
  | some msg => ⟨d, some ("failed to create credential: " ++ msg), [], [], 0⟩
  | none =>
    match env.writeHandle with
    | some msg => ⟨d, some ("failed to create credential: " ++ msg), [], [], 0⟩
    | none =>
      let d2 := { d with id := d.credential_name }
      retryCredentialRead env.readWorlds d2 5

/-! ### Model resource (`resource_model_crud.go`): read and retry loop -/

/-- The model resource's identifier state.  `resourceLiteLLMModelRead`'s
other field writes copy response/state values and are not referenced by any
reconciliation decision; only the identifier is modelled. -/
structure ModelState where
  id : String
deriving Repr, DecidableEq

/-- Outcome of one model GET as seen by `resourceLiteLLMModelRead`. -/
inductive ModelReadOutcome where
  | transportErr (msg : String)
  | handleErr (msg : String)
  | success
deriving Repr, DecidableEq

/-- Embedding of `resourceLiteLLMModelRead`: a `model_not_found` decode
error clears the identifier and returns nil; other errors are wrapped;
success leaves the identifier unchanged. -/
def resourceLiteLLMModelRead (world : ModelReadOutcome) (d : ModelState) :
    ModelState × Option String :=
  match world with
  | .transportErr msg => (d, some ("failed to read model: " ++ msg))
  | .handleErr msg =>
    if msg = "model_not_found" then ({ d with id := "" }, none)
    else (d, some ("failed to read model: " ++ msg))
  | .success => (d, none)

/-- Embedding of `isRetryableModelError`. -/
def isRetryableModelError : Option String → Bool
  | none => false
  | some errStr =>
    strContains errStr "not found" || strContains errStr "Model id =" ||
      strContains errStr "model_not_found"

/-- One attempt of `retryModelRead`: just the read (the loop performs no
identifier restoration). -/
def modelRetryStep (worlds : Nat → ModelReadOutcome) (i : Nat)
    (d : ModelState) : ModelState × Option String :=
  resourceLiteLLMModelRead (worlds i) d

/-- Embedding of `retryModelRead` (200ms settle sleep before the first
attempt, initial delay 500ms, cap 10s). -/
def retryModelRead (worlds : Nat → ModelReadOutcome) (d : ModelState)
    (maxRetries : Nat) : RetryResult ModelState :=
  let r := retryReadLoop (modelRetryStep worlds)
    (fun msg => isRetryableModelError (some msg)) maxRetries 0 500 d none
    maxRetries
  ⟨r.d, r.err, [200], r.sleeps, r.attempts⟩

/-! ### Go dynamic values and the stdlib parsers used by the mapper

`litellm_params` is a Go `map[string]interface{}`; its values are modelled
by `GoVal` (float64 values as exact rationals — no claim depends on binary
rounding).  The map itself is modelled extensionally as
`String → Option GoVal`.  `strconv.Atoi`, `strconv.ParseFloat` and
`json.Unmarshal` are Go standard library collaborators; they are modelled
below on the decimal/JSON forms the provider feeds them. -/

/-- A Go `interface{}` value as produced by the parameter mapper. -/
inductive GoVal where
  | vnull
  | vbool (b : Bool)
  | vint (n : Int)
  | vfloat (q : Rat)
  | vstr (s : String)
  | varr (xs : List GoVal)
  | vobj (fs : List (String × GoVal))
deriving Repr

/-- Extensional model of a Go `map[string]interface{}`. -/
def StrMap : Type := String → Option GoVal

/-- Go map assignment `m[k] = v`. -/
def mapSet (m : StrMap) (k : String) (v : GoVal) : StrMap :=
  fun x => if x = k then some v else m x

/-- Go `delete(m, k)`. -/
def mapDelete (m : StrMap) (k : String) : StrMap :=
  fun x => if x = k then none else m x

/-- The empty map. -/
def mapEmpty : StrMap := fun _ => none

/-- Digits of a char list as a natural number (most significant first). -/
def digitsToNat (cs : List Char) : Nat :=
  cs.foldl (fun acc c => acc * 10 + (c.toNat - '0'.toNat)) 0

/-- Model of Go `strconv.Atoi`: optional sign, non-empty digit string,
64-bit signed range. -/
def goAtoi (s : String) : Option Int :=
  let cs := s.toList
  let (neg, ds) :=
    match cs with
    | '-' :: rest => (true, rest)
    | '+' :: rest => (false, rest)
    | _ => (false, cs)
  if ds.isEmpty then none
  else if ds.all Char.isDigit then
    let n : Int := Int.ofNat (digitsToNat ds)
    let v := if neg then -n else n
    if -9223372036854775808 ≤ v ∧ v ≤ 9223372036854775807 then some v
    else none
  else none

/-- Model of Go `strconv.ParseFloat` on ordinary decimal literals:
optional sign, integer digits, optional fraction, optional decimal
exponent. -/
def goParseFloat (s : String) : Option Rat :=
  let cs := s.toList
  let (neg, cs1) :=
    match cs with
    | '-' :: rest => (true, rest)
    | '+' :: rest => (false, rest)
    | _ => (false, cs)
  let intDs := cs1.takeWhile Char.isDigit
  let cs2 := cs1.drop intDs.length
  let (fracDs, cs3) :=
    match cs2 with
    | '.' :: rest => (rest.takeWhile Char.isDigit, rest.drop ((rest.takeWhile Char.isDigit).length))
    | _ => ([], cs2)
  if intDs.isEmpty ∧ fracDs.isEmpty then none
  else
    let mantissa : Rat :=
      (digitsToNat intDs : Rat) + (digitsToNat fracDs : Rat) / ((10 : Rat) ^ fracDs.length)
    let withExp : Option Rat :=
      match cs3 with
      | [] => some mantissa
      | e :: rest =>
        if e = 'e' ∨ e = 'E' then
          let (eneg, eds0) :=
            match rest with
            | '-' :: r => (true, r)
            | '+' :: r => (false, r)
            | _ => (false, rest)
          if eds0.isEmpty ∨ ¬ eds0.all Char.isDigit then none
          else
            let k := digitsToNat eds0
            some (if eneg then mantissa / ((10 : Rat) ^ k) else mantissa * ((10 : Rat) ^ k))
        else none
    match withExp with
    | none => none
    | some q => some (if neg then -q else q)

/-- Drop JSON whitespace. -/
def skipWs (cs : List Char) : List Char := cs.dropWhile isSpaceChar

/-- Parse the body of a JSON string literal (after the opening quote),
returning the string and the rest of the input. -/
def parseJString : List Char → Option (String × List Char)
  | [] => none
  | '"' :: rest => some ("", rest)
  | '\\' :: e :: rest =>
    let esc : Option Char :=
      match e with
      | '"' => some '"'
      | '\\' => some '\\'
      | '/' => some '/'
      | 'n' => some '\n'
      | 't' => some '\t'
      | 'r' => some '\r'
      | _ => none
    match esc with
    | none => none
    | some c =>
      match parseJString rest with
      | some (s, r) => some (String.mk (c :: s.toList), r)
      | none => none
  | c :: rest =>
    match parseJString rest with
    | some (s, r) => some (String.mk (c :: s.toList), r)
    | none => none

/-- Parse a JSON number, producing a `float64`-valued `GoVal` the way
`json.Unmarshal` into `interface{}` does. -/
def parseJNum (cs : List Char) : Option (GoVal × List Char) :=
  let (neg, cs1) :=
    match cs with
    | '-' :: rest => (true, rest)
    | _ => (false, cs)
  let intDs := cs1.takeWhile Char.isDigit
  if intDs.isEmpty then none
  else
    let cs2 := cs1.drop intDs.length
    let (fracDs, cs3) :=
      match cs2 with
      | '.' :: rest => (rest.takeWhile Char.isDigit, rest.drop ((rest.takeWhile Char.isDigit).length))
      | _ => ([], cs2)
    let (expPart, cs4) :=
      match cs3 with
      | e :: rest =>
        if e = 'e' ∨ e = 'E' then
          match rest with
          | '-' :: r => ((some (true, r.takeWhile Char.isDigit) : Option (Bool × List Char)), r.drop ((r.takeWhile Char.isDigit).length))
          | '+' :: r => (some (false, r.takeWhile Char.isDigit), r.drop ((r.takeWhile Char.isDigit).length))
          | r => (some (false, r.takeWhile Char.isDigit), r.drop ((r.takeWhile Char.isDigit).length))
        else (none, cs3)
      | [] => (none, cs3)
    let base : Rat :=
      (digitsToNat intDs : Rat) + (digitsToNat fracDs : Rat) / ((10 : Rat) ^ fracDs.length)
    match expPart with
    | none =>
      some (GoVal.vfloat (if neg then -base else base), cs3)
    | some (eneg, eds) =>
      if eds.isEmpty then none
      else
        let k := digitsToNat eds
        let q := if eneg then base / ((10 : Rat) ^ k) else base * ((10 : Rat) ^ k)
        some (GoVal.vfloat (if neg then -q else q), cs4)

mutual

/-- Recursive-descent JSON value parser (fuel-bounded). -/
def parseJVal : Nat → List Char → Option (GoVal × List Char)
  | 0, _ => none
  | fuel + 1, cs =>
    match skipWs cs with
    | 'n' :: 'u' :: 'l' :: 'l' :: rest => some (GoVal.vnull, rest)
    | 't' :: 'r' :: 'u' :: 'e' :: rest => some (GoVal.vbool true, rest)
    | 'f' :: 'a' :: 'l' :: 's' :: 'e' :: rest => some (GoVal.vbool false, rest)
    | '"' :: rest =>
      match parseJString rest with
      | some (s, r) => some (GoVal.vstr s, r)
      | none => none
    | '[' :: rest =>
      match parseJArrItems fuel rest with
      | some (xs, r) => some (GoVal.varr xs, r)
      | none => none
    | '{' :: rest =>
      match parseJObjItems fuel rest with
      | some (fs, r) => some (GoVal.vobj fs, r)
      | none => none
    | other => parseJNum other

/-- Items of a JSON array (input starts after `[`). -/
def parseJArrItems : Nat → List Char → Option (List GoVal × List Char)
  | 0, _ => none
  | fuel + 1, cs =>
    match skipWs cs with
    | ']' :: rest => some ([], rest)
    | cs' =>
      match parseJVal fuel cs' with
      | none => none
      | some (v, r) =>
        match skipWs r with
        | ',' :: r2 =>
          match parseJArrItems fuel r2 with
          | some (vs, r3) => some (v :: vs, r3)
          | none => none
        | ']' :: r2 => some ([v], r2)
        | _ => none

/-- Fields of a JSON object (input starts after `{`). -/
def parseJObjItems : Nat → List Char → Option (List (String × GoVal) × List Char)
  | 0, _ => none
  | fuel + 1, cs =>
    match skipWs cs with
    | '}' :: rest => some ([], rest)
    | '"' :: rest =>
      match parseJString rest with
      | none => none
      | some (k, r) =>
        match skipWs r with
        | ':' :: r2 =>
          match parseJVal fuel r2 with
          | none => none
          | some (v, r3) =>
            match skipWs r3 with
            | ',' :: r4 =>
              match parseJObjItems fuel r4 with
              | some (fs, r5) => some ((k, v) :: fs, r5)
              | none => none
            | '}' :: r4 => some ([(k, v)], r4)
            | _ => none
        | _ => none
    | _ => none

end

/-- Model of Go `json.Unmarshal` into `interface{}`: one JSON value,
nothing but whitespace after it. -/
def jsonUnmarshal (s : String) : Option GoVal :=
  let cs := s.toList
  match parseJVal (cs.length + 1) cs with
  | some (v, rest) => if (skipWs rest).isEmpty then some v else none
  | none => none

/-! ### The additional-parameters bag of `createOrUpdateModel` -/

/-- The string conversion chain that appears (twice, verbatim) in
`createOrUpdateModel`'s additional-params loop: boolean literals, then
`strconv.Atoi`, then `strconv.ParseFloat`, else the string itself. -/
def coerceStringValue (strValue : String) : GoVal :=
  if strValue = "true" then GoVal.vbool true
  else if strValue = "false" then GoVal.vbool false
  else
    match goAtoi strValue with
    | some intValue => GoVal.vint intValue
    | none =>
      match goParseFloat strValue with
      | some floatValue => GoVal.vfloat floatValue
      | none => GoVal.vstr strValue

/-- The value `createOrUpdateModel` actually merges for a string bag value:
JSON is attempted only when the trimmed string starts with `[` or `\x7b`;
on failure (or for other strings) the conversion chain applies. -/
def convertAdditionalParamValue (strValue : String) : GoVal :=
  let trimmedValue := trimSpace strValue
  if strHasPre trimmedValue "[" || strHasPre trimmedValue "\x7b" then
    match jsonUnmarshal strValue with
    | some parsedValue => parsedValue
    | none => coerceStringValue strValue
  else coerceStringValue strValue

/-- Modelled from the spec: the spec's description of the coercion pipeline
("a string value is first tried as JSON, then as boolean literals, then as
integer, then as float, else left as string") with JSON parsing attempted
unconditionally first.  Kept separate from the source-derived
`convertAdditionalParamValue` for comparison. -/
def specCoerceAdditionalParamValue (strValue : String) : GoVal :=
  match jsonUnmarshal strValue with
  | some parsedValue => parsedValue
  | none => coerceStringValue strValue

/-- One iteration of the `for key, value := range additionalParams` loop:
updates the params map and the accumulated `dropParams` list. -/
def mergeBagEntry (acc : StrMap × List String) (kv : String × GoVal) :
    StrMap × List String :=
  let params := acc.1
  let dropParams := acc.2
  let key := kv.1
  match kv.2 with
  | GoVal.vstr strValue =>
    let trimmedValue := trimSpace strValue
    if strHasPre trimmedValue "[" || strHasPre trimmedValue "\x7b" then
      match jsonUnmarshal strValue with
      | some parsedValue =>
        if key = "additional_drop_params" then
          match parsedValue with
          | GoVal.varr dropList =>
            (params,
             dropParams ++ dropList.filterMap (fun item =>
               match item with
               | GoVal.vstr paramStr => some paramStr
               | _ => none))
          | _ => (params, dropParams)
        else (mapSet params key parsedValue, dropParams)
      | none => (mapSet params key (coerceStringValue strValue), dropParams)
    else (mapSet params key (coerceStringValue strValue), dropParams)
  | value => (mapSet params key value, dropParams)

/-- The `additional_drop_params` keys collected while merging `bag`. -/
def collectedDropParams (params : StrMap) (bag : List (String × GoVal)) :
    List String :=
  (bag.foldl mergeBagEntry (params, [])).2

/-- The whole `additional_litellm_params` merge: fold the bag over the
params map, then delete every collected drop key (applied last). -/
def mergeAdditionalParams (params : StrMap) (bag : List (String × GoVal)) :
    StrMap :=
  let acc := bag.foldl mergeBagEntry (params, [])
  acc.2.foldl mapDelete acc.1

/-! ### The upsert orchestrator `createOrUpdateModel` -/

/-- The declarative fields read by `createOrUpdateModel` (Go float64 values
as rationals). -/
structure ModelFields where
  input_cost_per_million_tokens : Rat
  output_cost_per_million_tokens : Rat
  custom_llm_provider : String
  base_model : String
  thinking_enabled : Bool
  thinking_budget_tokens : Int
  merge_reasoning_content_in_choices : Bool
  tpm : Int
  rpm : Int
  model_api_key : String
  model_api_base : String
  api_version : String
  input_cost_per_pixel : Rat
  output_cost_per_pixel : Rat
  input_cost_per_second : Rat
  output_cost_per_second : Rat
  aws_access_key_id : String
  aws_secret_access_key : String
  aws_region_name : String
  aws_session_name : String
  aws_role_name : String
  vertex_project : String
  vertex_location : String
  vertex_credentials : String
  reasoning_effort : String
  additional_litellm_params : Option (List (String × GoVal))
  model_name : String
  tier : String
  mode : String
  team_id : String

/-- Conditionally set an optional parameter (`if cond { m[k] = v }`). -/
def mapSetIf (m : StrMap) (cond : Bool) (k : String) (v : GoVal) : StrMap :=
  if cond then mapSet m k v else m

/-- The base `litellm_params` map assembled by `createOrUpdateModel`
before the additional-params merge: base entries, optional entries only
when non-zero/non-empty, and the thinking sub-object. -/
def buildBaseLitellmParams (f : ModelFields) : StrMap :=
  let inputCostPerToken := f.input_cost_per_million_tokens / 1000000
  let outputCostPerToken := f.output_cost_per_million_tokens / 1000000
  let modelName := f.custom_llm_provider ++ "/" ++ f.base_model
  let thinking : Option GoVal :=
    if f.thinking_enabled then
      some (GoVal.vobj [("type", GoVal.vstr "enabled"),
                        ("budget_tokens", GoVal.vint f.thinking_budget_tokens)])
    else none
  let m := mapEmpty
  let m := mapSet m "custom_llm_provider" (GoVal.vstr f.custom_llm_provider)
  let m := mapSet m "model" (GoVal.vstr modelName)
  let m := mapSet m "input_cost_per_token" (GoVal.vfloat inputCostPerToken)
  let m := mapSet m "output_cost_per_token" (GoVal.vfloat outputCostPerToken)
  let m := mapSet m "merge_reasoning_content_in_choices"
    (GoVal.vbool f.merge_reasoning_content_in_choices)
  let m := mapSetIf m (0 < f.tpm) "tpm" (GoVal.vint f.tpm)
  let m := mapSetIf m (0 < f.rpm) "rpm" (GoVal.vint f.rpm)
  let m := mapSetIf m (f.model_api_key ≠ "") "api_key" (GoVal.vstr f.model_api_key)
  let m := mapSetIf m (f.model_api_base ≠ "") "api_base" (GoVal.vstr f.model_api_base)
  let m := mapSetIf m (f.api_version ≠ "") "api_version" (GoVal.vstr f.api_version)
  let m := mapSetIf m (0 < f.input_cost_per_pixel) "input_cost_per_pixel"
    (GoVal.vfloat f.input_cost_per_pixel)
  let m := mapSetIf m (0 < f.output_cost_per_pixel) "output_cost_per_pixel"
    (GoVal.vfloat f.output_cost_per_pixel)
  let m := mapSetIf m (0 < f.input_cost_per_second) "input_cost_per_second"
    (GoVal.vfloat f.input_cost_per_second)
  let m := mapSetIf m (0 < f.output_cost_per_second) "output_cost_per_second"
    (GoVal.vfloat f.output_cost_per_second)
  let m := mapSetIf m (f.aws_access_key_id ≠ "") "aws_access_key_id"
    (GoVal.vstr f.aws_access_key_id)
  let m := mapSetIf m (f.aws_secret_access_key ≠ "") "aws_secret_access_key"
    (GoVal.vstr f.aws_secret_access_key)
  let m := mapSetIf m (f.aws_region_name ≠ "") "aws_region_name"
    (GoVal.vstr f.aws_region_name)
  let m := mapSetIf m (f.aws_session_name ≠ "") "aws_session_name"
    (GoVal.vstr f.aws_session_name)
  let m := mapSetIf m (f.aws_role_name ≠ "") "aws_role_name"
    (GoVal.vstr f.aws_role_name)
  let m := mapSetIf m (f.vertex_project ≠ "") "vertex_project"
    (GoVal.vstr f.vertex_project)
  let m := mapSetIf m (f.vertex_location ≠ "") "vertex_location"
    (GoVal.vstr f.vertex_location)
  let m := mapSetIf m (f.vertex_credentials ≠ "") "vertex_credentials"
    (GoVal.vstr f.vertex_credentials)
  let m := mapSetIf m (f.reasoning_effort ≠ "") "reasoning_effort"
    (GoVal.vstr f.reasoning_effort)
  match thinking with
  | some t => mapSet m "thinking" t
  | none => m

/-- The full `litellm_params` map: the base map, with the
`additional_litellm_params` bag merged over it when that field is set
(`d.GetOk`). -/
def buildLitellmParams (f : ModelFields) : StrMap :=
  match f.additional_litellm_params with
  | some bag => mergeAdditionalParams (buildBaseLitellmParams f) bag
  | none => buildBaseLitellmParams f

/-- `model_info` of the write request. -/
structure ModelInfoReq where
  id : String
  dbModel : Bool
  baseModel : String
  tier : String
  mode : String
  teamID : String

/-- The write request body assembled by `createOrUpdateModel`. -/
structure ModelRequest where
  modelName : String
  liteLLMParams : StrMap
  modelInfo : ModelInfoReq

/-- External outcomes consumed by `createOrUpdateModel`: the generated
UUID for the create path, transport and decode outcomes of the write
(per endpoint kind and request), and the read worlds of the retry phase. -/
structure ModelEnv where
  freshUUID : String
  writeTransport : Bool → ModelRequest → Option String
  writeHandle : Bool → ModelRequest → Option String
  readWorlds : Nat → ModelReadOutcome

/-- Trace of one `createOrUpdateModel` call: final state, returned error,
the `isUpdate` flag of each write attempt in order, and the read attempts
performed by the reconciliation phase. -/
structure UpsertResult where
  d : ModelState
  err : Option String
  writes : List Bool
  readAttempts : Nat

/-- Go's `map[bool]string{true: "update", false: "create"}[isUpdate]`. -/
def opWord (isUpdate : Bool) : String := if isUpdate then "update" else "create"

/-- Embedding of `createOrUpdateModel`: build the request (fresh UUID on
the create path), send the write, fall back from update to create exactly
when the decode error is `model_not_found`, then set the identifier and
reconcile with `retryModelRead` and budget 8. -/
def createOrUpdateModel (env : ModelEnv) (f : ModelFields) (d : ModelState)
    (isUpdate : Bool) : UpsertResult :=
  let modelID := if isUpdate then d.id else env.freshUUID
  let litellmParams := buildLitellmParams f
  let modelReq : ModelRequest :=
    { modelName := f.model_name
      liteLLMParams := litellmParams
      modelInfo :=
        { id := modelID, dbModel := true, baseModel := f.base_model,
          tier := f.tier, mode := f.mode, teamID := f.team_id } }
  match env.writeTransport isUpdate modelReq with
  | some msg =>
    { d := d, err := some ("failed to " ++ opWord isUpdate ++ " model: " ++ msg),
      writes := [isUpdate], readAttempts := 0 }
  | none =>
    match env.writeHandle isUpdate modelReq with
    | some msg =>
      if h : isUpdate = true ∧ msg = "model_not_found" then
        let r := createOrUpdateModel env f d false
        { d := r.d, err := r.err, writes := isUpdate :: r.writes,
          readAttempts := r.readAttempts }
      else
        { d := d, err := some ("failed to " ++ opWord isUpdate ++ " model: " ++ msg),
          writes := [isUpdate], readAttempts := 0 }
    | none =>
      let d2 : ModelState := { d with id := modelID }
      let rr := retryModelRead env.readWorlds d2 8
      { d := rr.d, err := rr.err, writes := [isUpdate], readAttempts := rr.attempts }
termination_by (if isUpdate then 1 else 0)
decreasing_by simp [h.1]

/-! ### Generic lemmas about the retry loop -/

theorem nextBackoffDelay_ge (delay : Nat) (h : delay ≤ 10000) :
    delay ≤ nextBackoffDelay delay := by
  unfold nextBackoffDelay; split <;> omega

theorem nextBackoffDelay_le (delay : Nat) (h : delay ≤ 10000) :
    nextBackoffDelay delay ≤ 10000 := by
  unfold nextBackoffDelay; split <;> omega

/-- Any run with at least one unit of fuel performs at least one attempt. -/
theorem retryLoop_attempts_pos {σ : Type} (step : Nat → σ → σ × Option String)
    (retryable : String → Bool) (maxRetries i delay : Nat) (d : σ)
    (err : Option String) (fuel : Nat) (h : 1 ≤ fuel) :
    1 ≤ (retryReadLoop step retryable maxRetries i delay d err fuel).attempts := by
  match fuel, h with
  | fuel + 1, _ =>
    rw [retryReadLoop]
    rcases hs : step i d with ⟨d2, e2⟩
    rcases e2 with _ | msg
    · simp
    · by_cases hr : retryable msg = true
      · simp only [hr, if_true]
        by_cases hi : i < maxRetries - 1
        · simp [hi]
        · simp [hi]
      · simp [hr]

/-- Exhaustion under an always-retryable read: exactly `fuel` attempts,
the doubling-capped delay sequence of length `fuel - 1`, and the loop
returns some retryable error. -/
theorem retryLoop_exhaust {σ : Type} (step : Nat → σ → σ × Option String)
    (retryable : String → Bool) (maxRetries : Nat)
    (hstep : ∀ j dd, ∃ dd' e, step j dd = (dd', some e) ∧ retryable e = true) :
    ∀ fuel i delay d err, i + fuel = maxRetries → 1 ≤ fuel →
      (retryReadLoop step retryable maxRetries i delay d err fuel).attempts = fuel ∧
      (retryReadLoop step retryable maxRetries i delay d err fuel).sleeps =
        backoffSeq delay (fuel - 1) ∧
      ∃ e, (retryReadLoop step retryable maxRetries i delay d err fuel).err = some e ∧
        retryable e = true := by
  intro fuel
  induction fuel with
  | zero => intro i delay d err _ h1; omega
  | succ n ih =>
    intro i delay d err hsum _
    obtain ⟨dd', e, hse, hre⟩ := hstep i d
    rw [retryReadLoop, hse]
    simp only [hre, if_true]
    rcases n with _ | m
    · have hi : ¬ i < maxRetries - 1 := by omega
      simp only [hi, if_false]
      rw [retryReadLoop]
      exact ⟨rfl, rfl, e, rfl, hre⟩
    · have hi : i < maxRetries - 1 := by omega
      simp only [hi, if_true]
      obtain ⟨ha, hs, e2, he2, hre2⟩ :=
        ih (i + 1) (nextBackoffDelay delay) dd' (some e) (by omega) (by omega)
      refine ⟨by simpa using ha, ?_, e2, by simpa using he2, hre2⟩
      simp only [hs]
      rfl

/-- If the first `t` attempts are retryable and attempt `t` (0-based)
produces a constant non-retryable error `E`, the loop stops right there:
`t + 1` attempts, `t` sleeps, and `E` is returned as-is. -/
theorem retryLoop_fatal {σ : Type} (step : Nat → σ → σ × Option String)
    (retryable : String → Bool) (maxRetries : Nat) (E : String)
    (hE : retryable E = false) :
    ∀ t fuel i delay d err, i + fuel = maxRetries → t < fuel →
      (∀ j dd, i ≤ j → j < i + t →
        ∃ dd' e, step j dd = (dd', some e) ∧ retryable e = true) →
      (∀ dd, ∃ dd', step (i + t) dd = (dd', some E)) →
      (retryReadLoop step retryable maxRetries i delay d err fuel).attempts = t + 1 ∧
      (retryReadLoop step retryable maxRetries i delay d err fuel).sleeps =
        backoffSeq delay t ∧
      (retryReadLoop step retryable maxRetries i delay d err fuel).err = some E := by
  intro t
  induction t with
  | zero =>
    intro fuel i delay d err hsum hlt _ hfat
    match fuel, hlt with
    | fuel + 1, _ =>
      obtain ⟨dd', hse⟩ := hfat d
      rw [retryReadLoop]
      rw [show i + 0 = i from rfl] at hse
      rw [hse]
      simp [hE, backoffSeq]
  | succ m ih =>
    intro fuel i delay d err hsum hlt hretry hfat
    match fuel, hlt with
    | fuel + 1, _ =>
      obtain ⟨dd', e, hse, hre⟩ := hretry i d (le_refl i) (by omega)
      rw [retryReadLoop, hse]
      simp only [hre, if_true]
      have hi : i < maxRetries - 1 := by omega
      simp only [hi, if_true]
      obtain ⟨ha, hs, he⟩ :=
        ih fuel (i + 1) (nextBackoffDelay delay) dd' (some e) (by omega) (by omega)
          (fun j dd hj1 hj2 => hretry j dd (by omega) (by omega))
          (fun dd => by
            have := hfat dd
            rwa [show i + (m + 1) = i + 1 + m by omega] at this)
      refine ⟨by simpa using ha, ?_, by simpa using he⟩
      simp only [hs]
      rfl

/-- If the first `fuel - 1` attempts are retryable and the final attempt
produces a constant retryable error `E`, exhaustion returns `E` as-is. -/
theorem retryLoop_lastErr {σ : Type} (step : Nat → σ → σ × Option String)
    (retryable : String → Bool) (maxRetries : Nat) (E : String)
    (hE : retryable E = true) :
    ∀ fuel i delay d err, i + fuel = maxRetries → 1 ≤ fuel →
      (∀ j dd, i ≤ j → j < i + (fuel - 1) →
        ∃ dd' e, step j dd = (dd', some e) ∧ retryable e = true) →
      (∀ dd, ∃ dd', step (i + (fuel - 1)) dd = (dd', some E)) →
      (retryReadLoop step retryable maxRetries i delay d err fuel).attempts = fuel ∧
      (retryReadLoop step retryable maxRetries i delay d err fuel).sleeps =
        backoffSeq delay (fuel - 1) ∧
      (retryReadLoop step retryable maxRetries i delay d err fuel).err = some E := by
  intro fuel
  induction fuel with
  | zero => intro i delay d err _ h1; omega
  | succ n ih =>
    intro i delay d err hsum _ hretry hfin
    rcases n with _ | m
    · obtain ⟨dd', hse⟩ := hfin d
      rw [retryReadLoop]
      rw [show i + (1 - 1) = i from rfl] at hse
      rw [hse]
      simp only [hE, if_true]
      have hi : ¬ i < maxRetries - 1 := by omega
      simp only [hi, if_false]
      rw [retryReadLoop]
      exact ⟨rfl, rfl, rfl⟩
    · obtain ⟨dd', e, hse, hre⟩ := hretry i d (le_refl i) (by omega)
      rw [retryReadLoop, hse]
      simp only [hre, if_true]
      have hi : i < maxRetries - 1 := by omega
      simp only [hi, if_true]
      obtain ⟨ha, hs, he⟩ :=
        ih (i + 1) (nextBackoffDelay delay) dd' (some e) (by omega) (by omega)
          (fun j dd hj1 hj2 => hretry j dd (by omega) (by omega))
          (fun dd => by
            have := hfin dd
            rwa [show i + (m + 2 - 1) = i + 1 + (m + 1 - 1) by omega] at this)
      refine ⟨by simpa using ha, ?_, by simpa using he⟩
      simp only [hs]
      rfl

/-- Invariant: every run's between-attempt delay list is nondecreasing,
bounded below by the entry delay and above by the 10s cap. -/
theorem retryLoop_sleeps_chain {σ : Type} (step : Nat → σ → σ × Option String)
    (retryable : String → Bool) (maxRetries : Nat) :
    ∀ fuel i delay d err, delay ≤ 10000 →
      ((∀ x ∈ (retryReadLoop step retryable maxRetries i delay d err fuel).sleeps,
          delay ≤ x ∧ x ≤ 10000) ∧
        List.Chain' (· ≤ ·)
          (retryReadLoop step retryable maxRetries i delay d err fuel).sleeps) := by
  intro fuel
  induction fuel with
  | zero =>
    intro i delay d err _
    rw [retryReadLoop]
    simp
  | succ n ih =>
    intro i delay d err hcap
    rw [retryReadLoop]
    rcases hs : step i d with ⟨d2, e2⟩
    rcases e2 with _ | msg
    · simp
    · by_cases hr : retryable msg = true
      · simp only [hr, if_true]
        by_cases hi : i < maxRetries - 1
        · simp only [hi, if_true]
          obtain ⟨hmem, hchain⟩ :=
            ih (i + 1) (nextBackoffDelay delay) d2 (some msg)
              (nextBackoffDelay_le delay hcap)
          constructor
          · intro x hx
            rcases List.mem_cons.mp hx with hx1 | hx2
            · exact ⟨le_of_eq hx1.symm, hx1 ▸ hcap⟩
            · have := hmem x hx2
              exact ⟨le_trans (nextBackoffDelay_ge delay hcap) this.1, this.2⟩
          · rw [List.chain'_cons']
            refine ⟨?_, hchain⟩
            intro y hy
            have hymem := List.mem_of_mem_head? hy
            exact le_trans (nextBackoffDelay_ge delay hcap) (hmem y hymem).1
        · simp only [hi, if_false]
          obtain ⟨hmem, hchain⟩ := ih (i + 1) delay d2 (some msg) hcap
          exact ⟨hmem, hchain⟩
      · simp [hr]

/-! ### Lemmas about the additional-params merge -/

theorem foldl_mapDelete_preserves_none (l : List String) :
    ∀ (m : StrMap) (k : String), m k = none → (l.foldl mapDelete m) k = none := by
  induction l with
  | nil => intro m k h; simpa using h
  | cons a t ih =>
    intro m k h
    refine ih (mapDelete m a) k ?_
    unfold mapDelete
    split <;> simp [h]

theorem foldl_mapDelete_mem (l : List String) :
    ∀ (m : StrMap) (k : String), k ∈ l → (l.foldl mapDelete m) k = none := by
  induction l with
  | nil => intro m k h; cases h
  | cons a t ih =>
    intro m k h
    rcases List.mem_cons.mp h with h1 | h2
    · subst h1
      exact foldl_mapDelete_preserves_none t (mapDelete m k) k (by simp [mapDelete])
    · exact ih (mapDelete m a) k h2

theorem foldl_mapDelete_not_mem (l : List String) :
    ∀ (m : StrMap) (k : String), k ∉ l → (l.foldl mapDelete m) k = m k := by
  induction l with
  | nil => intro m k _; rfl
  | cons a t ih =>
    intro m k h
    have hka : k ≠ a := fun he => h (he ▸ List.mem_cons_self a t)
    have hkt : k ∉ t := fun he => h (List.mem_cons_of_mem a he)
    rw [List.foldl_cons, ih (mapDelete m a) k hkt]
    unfold mapDelete
    simp [hka]

/-- A bag entry with a different key never changes the params map at `k`. -/
theorem mergeBagEntry_fst_other (acc : StrMap × List String) (k' : String)
    (v : GoVal) (k : String) (hk : k ≠ k') :
    (mergeBagEntry acc (k', v)).1 k = acc.1 k := by
  have hset : ∀ (m : StrMap) (w : GoVal), mapSet m k' w k = m k := by
    intro m w; unfold mapSet; simp [hk]
  cases v <;> simp only [mergeBagEntry] <;> try exact hset _ _
  split
  · split
    · split
      · split <;> rfl
      · exact hset _ _
    · exact hset _ _
  · exact hset _ _

/-- A string-valued bag entry (other than the reserved drop key) sets its
key to the guarded-coercion of the string. -/
theorem mergeBagEntry_fst_self (acc : StrMap × List String) (k s : String)
    (hk : k ≠ "additional_drop_params") :
    (mergeBagEntry acc (k, GoVal.vstr s)).1 k =
      some (convertAdditionalParamValue s) := by
  have hset : ∀ (m : StrMap) (w : GoVal), mapSet m k w k = some w := by
    intro m w; unfold mapSet; simp
  simp only [mergeBagEntry, convertAdditionalParamValue]
  split
  · rcases hj : jsonUnmarshal s with _ | pv
    · simp only [hj]
      exact hset _ _
    · simp only [hj, hk, if_false]
      exact hset _ _
  · exact hset _ _

/-- Folding bag entries whose keys avoid `k` leaves the params map at `k`
unchanged. -/
theorem foldl_mergeBagEntry_not_mem (bag : List (String × GoVal)) :
    ∀ (acc : StrMap × List String) (k : String), k ∉ bag.map Prod.fst →
      (bag.foldl mergeBagEntry acc).1 k = acc.1 k := by
  induction bag with
  | nil => intro acc k _; rfl
  | cons hd t ih =>
    intro acc k h
    have hk : k ≠ hd.1 := by
      intro he; exact h (by simp [he])
    have hkt : k ∉ t.map Prod.fst := by
      intro he; exact h (by simp [he])
    rw [List.foldl_cons, ih (mergeBagEntry acc hd) k hkt]
    exact mergeBagEntry_fst_other acc hd.1 hd.2 k hk

/-- With distinct bag keys, the merge fold maps a string-valued entry's key
to the guarded coercion of its string. -/
theorem foldl_mergeBagEntry_value (bag : List (String × GoVal)) :
    ∀ (acc : StrMap × List String) (k s : String),
      (bag.map Prod.fst).Nodup → (k, GoVal.vstr s) ∈ bag →
      k ≠ "additional_drop_params" →
      (bag.foldl mergeBagEntry acc).1 k =
        some (convertAdditionalParamValue s) := by
  induction bag with
  | nil => intro acc k s _ h _; cases h
  | cons hd t ih =>
    intro acc k s hnd hmem hk
    have hnd2 := hnd
    rw [List.map_cons] at hnd2
    rcases List.mem_cons.mp hmem with h1 | h2
    · subst h1
      have hkt : k ∉ t.map Prod.fst := (List.nodup_cons.mp hnd2).1
      rw [List.foldl_cons,
        foldl_mergeBagEntry_not_mem t (mergeBagEntry acc (k, GoVal.vstr s)) k hkt]
      exact mergeBagEntry_fst_self acc k s hk
    · have hnd' : (t.map Prod.fst).Nodup := (List.nodup_cons.mp hnd2).2
      rw [List.foldl_cons]
      exact ih (mergeBagEntry acc hd) k s hnd' h2 hk

/-! ### Concrete fixtures used by witnesses -/

/-- A concrete credential state. -/
def sampleCred : CredState := ⟨"cid", "cname", [], [("api_key", "sk-1")], ""⟩

/-- A concrete model field set (all optional fields absent/zero). -/
def sampleFields : ModelFields :=
  { input_cost_per_million_tokens := 0
    output_cost_per_million_tokens := 0
    custom_llm_provider := "openai"
    base_model := "gpt-4o"
    thinking_enabled := false
    thinking_budget_tokens := 0
    merge_reasoning_content_in_choices := false
    tpm := 0
    rpm := 0
    model_api_key := ""
    model_api_base := ""
    api_version := ""
    input_cost_per_pixel := 0
    output_cost_per_pixel := 0
    input_cost_per_second := 0
    output_cost_per_second := 0
    aws_access_key_id := ""
    aws_secret_access_key := ""
    aws_region_name := ""
    aws_session_name := ""
    aws_role_name := ""
    vertex_project := ""
    vertex_location := ""
    vertex_credentials := ""
    reasoning_effort := ""
    additional_litellm_params := none
    model_name := "prod-model"
    tier := ""
    mode := ""
    team_id := "" }

/-! ### Claim theorems -/

/-- C1: the claim requires both reconcilers to restore an identifier that a
read cleared while reporting success, and to return nil only when the
identifier is non-empty.  `retryModelRead` violates this: when the read
clears the identifier and returns no error (the `model_not_found` branch of
`resourceLiteLLMModelRead`), the reconciler returns nil immediately after
one attempt with the identifier left empty — despite its own comment
("Re-set the ID and retry") and its stated eventual-consistency purpose,
and unlike its credential twin, which restores the identifier.  This
theorem evaluates the embedded code at that failing input. -/
theorem retryModelRead_silent_not_found_returns_nil_with_empty_id :
    (retryModelRead (fun _ => ModelReadOutcome.handleErr "model_not_found")
      ⟨"model-123"⟩ 8).err = none ∧
    (retryModelRead (fun _ => ModelReadOutcome.handleErr "model_not_found")
      ⟨"model-123"⟩ 8).d.id = "" ∧
    (retryModelRead (fun _ => ModelReadOutcome.handleErr "model_not_found")
      ⟨"model-123"⟩ 8).attempts = 1 := by
  decide

/-- C2: an update whose write decodes to `model_not_found` performs exactly
one create fallback; when the fallback's own write decodes to
`model_not_found` again, the error is returned wrapped as a normal fatal
error and no further write happens. -/
theorem update_fallback_exactly_once (env : ModelEnv) (f : ModelFields)
    (d : ModelState)
    (h1 : ∀ r, env.writeTransport true r = none)
    (h2 : ∀ r, env.writeTransport false r = none)
    (h3 : ∀ r, env.writeHandle true r = some "model_not_found")
    (h4 : ∀ r, env.writeHandle false r = some "model_not_found") :
    (createOrUpdateModel env f d true).writes = [true, false] ∧
    (createOrUpdateModel env f d true).err =
      some "failed to create model: model_not_found" := by
  unfold createOrUpdateModel
  simp only [h1, h2, h3, h4]
  unfold createOrUpdateModel
  simp only [h2, h4]
  simp [opWord]

theorem update_fallback_exactly_once_witness :
    (createOrUpdateModel
      ⟨"u-1", fun _ _ => none, fun _ _ => some "model_not_found",
        fun _ => ModelReadOutcome.success⟩
      sampleFields ⟨"old-id"⟩ true).writes = [true, false] ∧
    (createOrUpdateModel
      ⟨"u-1", fun _ _ => none, fun _ _ => some "model_not_found",
        fun _ => ModelReadOutcome.success⟩
      sampleFields ⟨"old-id"⟩ true).err =
      some "failed to create model: model_not_found" :=
  update_fallback_exactly_once _ sampleFields ⟨"old-id"⟩
    (fun _ => rfl) (fun _ => rfl) (fun _ => rfl) (fun _ => rfl)

/-- C3: with every attempt reporting a retryable not-found, each reconciler
performs exactly `N` attempts, sleeps exactly `N - 1` times with the
doubling-capped delay sequence (credentials from 1s, models from 500ms
after the fixed 200ms settle sleep), and returns a not-found error. -/
theorem reconcile_exhaustion_attempts_and_sleeps :
    (∀ (worlds : Nat → String → CredReadOutcome) (d : CredState) (N : Nat),
      1 ≤ N →
      (∀ j dd, ∃ dd' e, credRetryStep worlds d.id j dd = (dd', some e) ∧
        strContains e "credential_not_found" = true) →
      (retryCredentialRead worlds d N).attempts = N ∧
      (retryCredentialRead worlds d N).sleeps = backoffSeq 1000 (N - 1) ∧
      ∃ e, (retryCredentialRead worlds d N).err = some e ∧
        strContains e "credential_not_found" = true) ∧
    (∀ (worlds : Nat → ModelReadOutcome) (d : ModelState) (N : Nat),
      1 ≤ N →
      (∀ j dd, ∃ dd' e, modelRetryStep worlds j dd = (dd', some e) ∧
        isRetryableModelError (some e) = true) →
      (retryModelRead worlds d N).attempts = N ∧
      (retryModelRead worlds d N).presleeps = [200] ∧
      (retryModelRead worlds d N).sleeps = backoffSeq 500 (N - 1) ∧
      ∃ e, (retryModelRead worlds d N).err = some e ∧
        isRetryableModelError (some e) = true) := by
  constructor
  · intro worlds d N hN hstep
    exact retryLoop_exhaust (credRetryStep worlds d.id)
      (fun msg => strContains msg "credential_not_found") N hstep N 0 1000 d none
      (by omega) hN
  · intro worlds d N hN hstep
    have h := retryLoop_exhaust (modelRetryStep worlds)
      (fun msg => isRetryableModelError (some msg)) N hstep N 0 500 d none
      (by omega) hN
    exact ⟨h.1, rfl, h.2.1, h.2.2⟩

theorem reconcile_exhaustion_attempts_and_sleeps_witness :
    ((retryCredentialRead (fun _ _ => CredReadOutcome.notFound404) sampleCred 3).attempts = 3 ∧
      (retryCredentialRead (fun _ _ => CredReadOutcome.notFound404) sampleCred 3).sleeps =
        backoffSeq 1000 2 ∧
      ∃ e, (retryCredentialRead (fun _ _ => CredReadOutcome.notFound404) sampleCred 3).err =
        some e ∧ strContains e "credential_not_found" = true) ∧
    ((retryModelRead (fun _ => ModelReadOutcome.transportErr "not found yet") ⟨"mid"⟩ 2).attempts = 2 ∧
      (retryModelRead (fun _ => ModelReadOutcome.transportErr "not found yet") ⟨"mid"⟩ 2).presleeps = [200] ∧
      (retryModelRead (fun _ => ModelReadOutcome.transportErr "not found yet") ⟨"mid"⟩ 2).sleeps =
        backoffSeq 500 1 ∧
      ∃ e, (retryModelRead (fun _ => ModelReadOutcome.transportErr "not found yet") ⟨"mid"⟩ 2).err =
        some e ∧ isRetryableModelError (some e) = true) :=
  ⟨reconcile_exhaustion_attempts_and_sleeps.1 _ sampleCred 3 (by omega)
      (fun j dd => ⟨{ dd with id := "cid" }, "credential_not_found", rfl, by decide⟩),
    reconcile_exhaustion_attempts_and_sleeps.2 _ ⟨"mid"⟩ 2 (by omega)
      (fun j dd => ⟨dd, "failed to read model: not found yet", rfl, by decide⟩)⟩

/-- C5: if attempt `k` (1-based, within the budget) produces a fatal
(non-retryable) error, each reconciler returns that error as-is right after
attempt `k`: exactly `k` attempts and `k - 1` sleeps, regardless of the
remaining budget. -/
theorem fatal_error_stops_immediately :
    (∀ (worlds : Nat → String → CredReadOutcome) (d : CredState) (N k : Nat)
      (E : String), 1 ≤ k → k ≤ N →
      strContains E "credential_not_found" = false →
      (∀ j dd, j < k - 1 → ∃ dd' e, credRetryStep worlds d.id j dd = (dd', some e) ∧
        strContains e "credential_not_found" = true) →
      (∀ dd, ∃ dd', credRetryStep worlds d.id (k - 1) dd = (dd', some E)) →
      (retryCredentialRead worlds d N).attempts = k ∧
      (retryCredentialRead worlds d N).sleeps = backoffSeq 1000 (k - 1) ∧
      (retryCredentialRead worlds d N).err = some E) ∧
    (∀ (worlds : Nat → ModelReadOutcome) (d : ModelState) (N k : Nat)
      (E : String), 1 ≤ k → k ≤ N →
      isRetryableModelError (some E) = false →
      (∀ j dd, j < k - 1 → ∃ dd' e, modelRetryStep worlds j dd = (dd', some e) ∧
        isRetryableModelError (some e) = true) →
      (∀ dd, ∃ dd', modelRetryStep worlds (k - 1) dd = (dd', some E)) →
      (retryModelRead worlds d N).attempts = k ∧
      (retryModelRead worlds d N).sleeps = backoffSeq 500 (k - 1) ∧
      (retryModelRead worlds d N).err = some E) := by
  constructor
  · intro worlds d N k E hk hkN hE hretry hfat
    have h := retryLoop_fatal (credRetryStep worlds d.id)
      (fun msg => strContains msg "credential_not_found") N E hE (k - 1) N 0 1000 d
      none (by omega) (by omega)
      (fun j dd _ hj => hretry j dd (by omega))
      (fun dd => by simpa using hfat dd)
    have hk1 : k - 1 + 1 = k := by omega
    exact ⟨hk1 ▸ h.1, h.2.1, h.2.2⟩
  · intro worlds d N k E hk hkN hE hretry hfat
    have h := retryLoop_fatal (modelRetryStep worlds)
      (fun msg => isRetryableModelError (some msg)) N E hE (k - 1) N 0 500 d
      none (by omega) (by omega)
      (fun j dd _ hj => hretry j dd (by omega))
      (fun dd => by simpa using hfat dd)
    have hk1 : k - 1 + 1 = k := by omega
    exact ⟨hk1 ▸ h.1, h.2.1, h.2.2⟩

theorem fatal_error_stops_immediately_witness :
    ((retryCredentialRead
        (fun j _ => if j = 0 then CredReadOutcome.notFound404
          else CredReadOutcome.transportErr "boom") sampleCred 3).attempts = 2 ∧
      (retryCredentialRead
        (fun j _ => if j = 0 then CredReadOutcome.notFound404
          else CredReadOutcome.transportErr "boom") sampleCred 3).sleeps =
        backoffSeq 1000 1 ∧
      (retryCredentialRead
        (fun j _ => if j = 0 then CredReadOutcome.notFound404
          else CredReadOutcome.transportErr "boom") sampleCred 3).err =
        some "failed to read credential: boom") ∧
    ((retryModelRead
        (fun j => if j = 0 then ModelReadOutcome.transportErr "not found yet"
          else ModelReadOutcome.handleErr "bad decode") ⟨"mid"⟩ 8).attempts = 2 ∧
      (retryModelRead
        (fun j => if j = 0 then ModelReadOutcome.transportErr "not found yet"
          else ModelReadOutcome.handleErr "bad decode") ⟨"mid"⟩ 8).sleeps =
        backoffSeq 500 1 ∧
      (retryModelRead
        (fun j => if j = 0 then ModelReadOutcome.transportErr "not found yet"
          else ModelReadOutcome.handleErr "bad decode") ⟨"mid"⟩ 8).err =
        some "failed to read model: bad decode") :=
  ⟨fatal_error_stops_immediately.1 _ sampleCred 3 2 "failed to read credential: boom"
      (by omega) (by omega) (by decide)
      (fun j dd hj => by
        have hj0 : j = 0 := by omega
        subst hj0
        exact ⟨{ dd with id := "cid" }, "credential_not_found", rfl, by decide⟩)
      (fun dd => ⟨dd, rfl⟩),
    fatal_error_stops_immediately.2 _ ⟨"mid"⟩ 8 2 "failed to read model: bad decode"
      (by omega) (by omega) (by decide)
      (fun j dd hj => by
        have hj0 : j = 0 := by omega
        subst hj0
        exact ⟨dd, "failed to read model: not found yet", rfl, by decide⟩)
      (fun dd => ⟨dd, rfl⟩)⟩

/-- C6: the backoff update is `min(current * 2, cap)` with cap 10s, and in
every reconciliation run of either reconciler the produced delay sequence
is nondecreasing and never exceeds the cap. -/
theorem backoff_doubling_capped_monotone :
    (∀ delay, nextBackoffDelay delay = min (delay * 2) 10000) ∧
    (∀ (worlds : Nat → String → CredReadOutcome) (d : CredState) (N : Nat),
      List.Chain' (· ≤ ·) (retryCredentialRead worlds d N).sleeps ∧
      ∀ x ∈ (retryCredentialRead worlds d N).sleeps, x ≤ 10000) ∧
    (∀ (worlds : Nat → ModelReadOutcome) (d : ModelState) (N : Nat),
      List.Chain' (· ≤ ·) (retryModelRead worlds d N).sleeps ∧
      ∀ x ∈ (retryModelRead worlds d N).sleeps, x ≤ 10000) := by
  refine ⟨?_, ?_, ?_⟩
  · intro delay
    rw [nextBackoffDelay, Nat.min_def]
    split <;> split <;> omega
  · intro worlds d N
    have h := retryLoop_sleeps_chain (credRetryStep worlds d.id)
      (fun msg => strContains msg "credential_not_found") N N 0 1000 d none
      (by omega)
    exact ⟨h.2, fun x hx => (h.1 x hx).2⟩
  · intro worlds d N
    have h := retryLoop_sleeps_chain (modelRetryStep worlds)
      (fun msg => isRetryableModelError (some msg)) N N 0 500 d none (by omega)
    exact ⟨h.2, fun x hx => (h.1 x hx).2⟩

theorem backoff_doubling_capped_monotone_witness :
    nextBackoffDelay 8000 = min (8000 * 2) 10000 ∧
    List.Chain' (· ≤ ·)
      (retryCredentialRead (fun _ _ => CredReadOutcome.notFound404) sampleCred 5).sleeps ∧
    1000 ∈ (retryCredentialRead (fun _ _ => CredReadOutcome.notFound404) sampleCred 5).sleeps ∧
    1000 ≤ 10000 :=
  ⟨backoff_doubling_capped_monotone.1 8000,
    (backoff_doubling_capped_monotone.2.1 (fun _ _ => CredReadOutcome.notFound404)
      sampleCred 5).1,
    by decide,
    (backoff_doubling_capped_monotone.2.1 (fun _ _ => CredReadOutcome.notFound404)
      sampleCred 5).2 1000 (by decide)⟩

/-- C7: `isRetryableModelError` is true exactly on non-nil errors whose
message contains one of the three not-found patterns (false on nil without
inspecting a message), and the credential reconciler classifies an attempt
error as retryable exactly when it contains `credential_not_found`: with
budget at least 2 a retryable first error leads to a second attempt, while
a non-retryable first error is returned immediately after one attempt. -/
theorem error_classifier_characterization :
    (∀ e, isRetryableModelError e = true ↔
      ∃ s, e = some s ∧ (strContains s "not found" = true ∨
        strContains s "Model id =" = true ∨
        strContains s "model_not_found" = true)) ∧
    isRetryableModelError none = false ∧
    (∀ (worlds : Nat → String → CredReadOutcome) (d : CredState) (N : Nat)
      (d' : CredState) (msg : String), 2 ≤ N →
      credRetryStep worlds d.id 0 d = (d', some msg) →
      ((strContains msg "credential_not_found" = true →
        2 ≤ (retryCredentialRead worlds d N).attempts) ∧
       (strContains msg "credential_not_found" = false →
        retryCredentialRead worlds d N = ⟨d', some msg, [], [], 1⟩))) := by
  refine ⟨?_, rfl, ?_⟩
  · intro e
    cases e with
    | none => simp [isRetryableModelError]
    | some s => simp [isRetryableModelError, Bool.or_eq_true, or_assoc]
  · intro worlds d N d' msg hN hstep
    rcases N with _ | _ | n
    · omega
    · omega
    · constructor
      · intro hret
        rw [retryCredentialRead, retryReadLoop, hstep]
        simp only [hret, if_true]
        have hi : 0 < n + 2 - 1 := by omega
        simp only [hi, if_true]
        have := retryLoop_attempts_pos (credRetryStep worlds d.id)
          (fun m => strContains m "credential_not_found") (n + 2) 1
          (nextBackoffDelay 1000) d' (some msg) (n + 1) (by omega)
        simpa using Nat.add_le_add this (le_refl 1)
      · intro hret
        rw [retryCredentialRead, retryReadLoop, hstep]
        simp [hret]

theorem error_classifier_characterization_witness :
    (isRetryableModelError (some "Model id = 42 absent") = true ↔
      ∃ s, (some "Model id = 42 absent" : Option String) = some s ∧
        (strContains s "not found" = true ∨ strContains s "Model id =" = true ∨
          strContains s "model_not_found" = true)) ∧
    (2 ≤ (retryCredentialRead (fun _ _ => CredReadOutcome.notFound404) sampleCred 5).attempts) ∧
    (retryCredentialRead (fun _ _ => CredReadOutcome.transportErr "boom") sampleCred 5 =
      ⟨sampleCred, some "failed to read credential: boom", [], [], 1⟩) :=
  ⟨error_classifier_characterization.1 (some "Model id = 42 absent"),
    (error_classifier_characterization.2.2 (fun _ _ => CredReadOutcome.notFound404)
      sampleCred 5 ({ sampleCred with id := "cid" }) "credential_not_found"
      (by omega) rfl).1 (by decide),
    (error_classifier_characterization.2.2 (fun _ _ => CredReadOutcome.transportErr "boom")
      sampleCred 5 sampleCred "failed to read credential: boom"
      (by omega) rfl).2 (by decide)⟩

/-- C4 counterexample: the claim says the error crossing the reconciler /
orchestrator boundary on exhaustion is the final attempt's error "wrapped
with an operation-kind prefix".  On the ordinary credential 404 path the
error returned to the caller by `resourceLiteLLMCredentialCreate` is the
bare synthesized sentinel `credential_not_found`, with no operation-kind
wrapping at all. -/
theorem exhaustion_error_not_wrapped_cex :
    (resourceLiteLLMCredentialCreate
      ⟨none, none, fun _ _ => CredReadOutcome.notFound404⟩
      ⟨"", "mycred", [], [], ""⟩).err = some "credential_not_found" ∧
    strHasPre "credential_not_found" "failed to" = false := by
  decide

/-- C4 (amended): when the budget is exhausted with only retryable
not-found errors, the error crossing the boundary is the final attempt's
error, returned as-is — earlier retryable errors are fully absorbed, and
neither the reconcilers nor the orchestrator (which passes the
reconciler's outcome through unchanged) add any wrapping. -/
theorem exhaustion_error_passthrough :
    (∀ (worlds : Nat → String → CredReadOutcome) (d : CredState) (N : Nat)
      (E : String), 1 ≤ N →
      strContains E "credential_not_found" = true →
      (∀ j dd, j < N - 1 → ∃ dd' e, credRetryStep worlds d.id j dd = (dd', some e) ∧
        strContains e "credential_not_found" = true) →
      (∀ dd, ∃ dd', credRetryStep worlds d.id (N - 1) dd = (dd', some E)) →
      (retryCredentialRead worlds d N).err = some E ∧
      (retryCredentialRead worlds d N).attempts = N) ∧
    (∀ (worlds : Nat → ModelReadOutcome) (d : ModelState) (N : Nat)
      (E : String), 1 ≤ N →
      isRetryableModelError (some E) = true →
      (∀ j dd, j < N - 1 → ∃ dd' e, modelRetryStep worlds j dd = (dd', some e) ∧
        isRetryableModelError (some e) = true) →
      (∀ dd, ∃ dd', modelRetryStep worlds (N - 1) dd = (dd', some E)) →
      (retryModelRead worlds d N).err = some E ∧
      (retryModelRead worlds d N).attempts = N) ∧
    (∀ (env : ModelEnv) (f : ModelFields) (d : ModelState) (isUpdate : Bool),
      (∀ r, env.writeTransport isUpdate r = none) →
      (∀ r, env.writeHandle isUpdate r = none) →
      (createOrUpdateModel env f d isUpdate).err =
        (retryModelRead env.readWorlds
          ⟨if isUpdate then d.id else env.freshUUID⟩ 8).err) := by
  refine ⟨?_, ?_, ?_⟩
  · intro worlds d N E hN hE hretry hfin
    have h := retryLoop_lastErr (credRetryStep worlds d.id)
      (fun msg => strContains msg "credential_not_found") N E hE N 0 1000 d none
      (by omega) hN (fun j dd _ hj => hretry j dd (by omega))
      (fun dd => by simpa using hfin dd)
    exact ⟨h.2.2, h.1⟩
  · intro worlds d N E hN hE hretry hfin
    have h := retryLoop_lastErr (modelRetryStep worlds)
      (fun msg => isRetryableModelError (some msg)) N E hE N 0 500 d none
      (by omega) hN (fun j dd _ hj => hretry j dd (by omega))
      (fun dd => by simpa using hfin dd)
    exact ⟨h.2.2, h.1⟩
  · intro env f d isUpdate h1 h2
    unfold createOrUpdateModel
    simp only [h1, h2]

theorem exhaustion_error_passthrough_witness :
    ((retryCredentialRead (fun _ _ => CredReadOutcome.notFound404) sampleCred 2).err =
        some "credential_not_found" ∧
      (retryCredentialRead (fun _ _ => CredReadOutcome.notFound404) sampleCred 2).attempts = 2) ∧
    ((retryModelRead (fun _ => ModelReadOutcome.transportErr "not found yet") ⟨"mid"⟩ 3).err =
        some "failed to read model: not found yet" ∧
      (retryModelRead (fun _ => ModelReadOutcome.transportErr "not found yet") ⟨"mid"⟩ 3).attempts = 3) ∧
    (createOrUpdateModel
      ⟨"u-2", fun _ _ => none, fun _ _ => none,
        fun _ => ModelReadOutcome.transportErr "not found yet"⟩
      sampleFields ⟨"old-id"⟩ true).err =
      (retryModelRead (fun _ => ModelReadOutcome.transportErr "not found yet")
        ⟨"old-id"⟩ 8).err :=
  ⟨exhaustion_error_passthrough.1 (fun _ _ => CredReadOutcome.notFound404)
      sampleCred 2 "credential_not_found" (by omega) (by decide)
      (fun j dd _ => ⟨({ dd with id := "cid" }), "credential_not_found", rfl, by decide⟩)
      (fun dd => ⟨({ dd with id := "cid" }), rfl⟩),
    exhaustion_error_passthrough.2.1 (fun _ => ModelReadOutcome.transportErr "not found yet")
      ⟨"mid"⟩ 3 "failed to read model: not found yet" (by omega) (by decide)
      (fun j dd _ => ⟨dd, "failed to read model: not found yet", rfl, by decide⟩)
      (fun dd => ⟨dd, rfl⟩),
    exhaustion_error_passthrough.2.2
      ⟨"u-2", fun _ _ => none, fun _ _ => none,
        fun _ => ModelReadOutcome.transportErr "not found yet"⟩
      sampleFields ⟨"old-id"⟩ true (fun _ => rfl) (fun _ => rfl)⟩

/-- C9: an update that falls back to a create assigns the freshly generated
UUID: on success the state identifier equals the generated UUID and (when
the UUID differs from the update's original identifier, as a fresh UUID
does) no longer equals the original identifier. -/
theorem fallback_create_assigns_fresh_uuid (env : ModelEnv) (f : ModelFields)
    (d : ModelState)
    (h1 : ∀ r, env.writeTransport true r = none)
    (h2 : ∀ r, env.writeTransport false r = none)
    (h3 : ∀ r, env.writeHandle true r = some "model_not_found")
    (h4 : ∀ r, env.writeHandle false r = none)
    (h5 : env.readWorlds 0 = ModelReadOutcome.success)
    (h6 : env.freshUUID ≠ d.id) :
    (createOrUpdateModel env f d true).err = none ∧
    (createOrUpdateModel env f d true).d.id = env.freshUUID ∧
    (createOrUpdateModel env f d true).d.id ≠ d.id := by
  unfold createOrUpdateModel
  simp only [h1, h3]
  unfold createOrUpdateModel
  simp only [h2, h4]
  rw [retryModelRead, retryReadLoop]
  simp only [modelRetryStep, h5, resourceLiteLLMModelRead]
  simpa using h6

theorem fallback_create_assigns_fresh_uuid_witness :
    (createOrUpdateModel
      ⟨"fresh-uuid", fun _ _ => none,
        fun isUpdate _ => if isUpdate then some "model_not_found" else none,
        fun _ => ModelReadOutcome.success⟩ sampleFields ⟨"old-id"⟩ true).err = none ∧
    (createOrUpdateModel
      ⟨"fresh-uuid", fun _ _ => none,
        fun isUpdate _ => if isUpdate then some "model_not_found" else none,
        fun _ => ModelReadOutcome.success⟩ sampleFields ⟨"old-id"⟩ true).d.id =
      "fresh-uuid" ∧
    (createOrUpdateModel
      ⟨"fresh-uuid", fun _ _ => none,
        fun isUpdate _ => if isUpdate then some "model_not_found" else none,
        fun _ => ModelReadOutcome.success⟩ sampleFields ⟨"old-id"⟩ true).d.id ≠
      "old-id" :=
  fallback_create_assigns_fresh_uuid _ sampleFields ⟨"old-id"⟩
    (fun _ => rfl) (fun _ => rfl) (fun _ => rfl) (fun _ => rfl) rfl (by decide)

/-- C10: a successful credential read that finds the resource writes only
`credential_name` and `credential_info`; `credential_values`, the
identifier and `model_id` are untouched. -/
theorem credential_read_preserves_sensitive_values
    (world : String → CredReadOutcome) (d : CredState)
    (resp : CredentialResponse)
    (h : world (credReadEndpoint d) = CredReadOutcome.success resp) :
    resourceLiteLLMCredentialRead world d =
      ({ d with credential_name := resp.credential_name,
                credential_info := resp.credential_info }, none) ∧
    (resourceLiteLLMCredentialRead world d).1.credential_values =
      d.credential_values ∧
    (resourceLiteLLMCredentialRead world d).1.id = d.id ∧
    (resourceLiteLLMCredentialRead world d).1.model_id = d.model_id := by
  rw [resourceLiteLLMCredentialRead, h]
  exact ⟨rfl, rfl, rfl, rfl⟩

theorem credential_read_preserves_sensitive_values_witness :
    resourceLiteLLMCredentialRead
      (fun _ => CredReadOutcome.success ⟨"cname2", [("team", "a")]⟩) sampleCred =
      ({ sampleCred with credential_name := "cname2",
                         credential_info := [("team", "a")] }, none) ∧
    (resourceLiteLLMCredentialRead
      (fun _ => CredReadOutcome.success ⟨"cname2", [("team", "a")]⟩)
      sampleCred).1.credential_values = sampleCred.credential_values ∧
    (resourceLiteLLMCredentialRead
      (fun _ => CredReadOutcome.success ⟨"cname2", [("team", "a")]⟩)
      sampleCred).1.id = sampleCred.id ∧
    (resourceLiteLLMCredentialRead
      (fun _ => CredReadOutcome.success ⟨"cname2", [("team", "a")]⟩)
      sampleCred).1.model_id = sampleCred.model_id :=
  credential_read_preserves_sensitive_values _ sampleCred ⟨"cname2", [("team", "a")]⟩ rfl

/-- C8 counterexample: the claim says every string bag value is coerced by
trying JSON parsing first.  The code attempts JSON only when the trimmed
value starts with `[` or `\x7b`: for the value `"null"` — a valid JSON
literal — the merged value is the unchanged string, while the claimed
JSON-first pipeline produces JSON null. -/
theorem additional_param_json_first_cex :
    mergeAdditionalParams mapEmpty [("p", GoVal.vstr "null")] "p" =
      some (GoVal.vstr "null") ∧
    specCoerceAdditionalParamValue "null" = GoVal.vnull ∧
    GoVal.vstr "null" ≠ GoVal.vnull := by
  refine ⟨rfl, rfl, fun h => GoVal.noConfusion h⟩

/-- C8 (amended): a string bag value is tried as JSON only when its
trimmed form starts with `[` or `\x7b`; otherwise — and when JSON parsing
fails — the boolean literals, integer parsing, float parsing and finally
the unchanged string are tried in order
(`convertAdditionalParamValue`); and every key named in the reserved
`additional_drop_params` list is absent from the final assembled payload,
the drops being applied last, after all merging. -/
theorem additional_params_coercion_and_drops :
    (∀ (params : StrMap) (bag : List (String × GoVal)) (k s : String),
      (bag.map Prod.fst).Nodup → (k, GoVal.vstr s) ∈ bag →
      k ≠ "additional_drop_params" →
      k ∉ collectedDropParams params bag →
      mergeAdditionalParams params bag k =
        some (convertAdditionalParamValue s)) ∧
    (∀ (params : StrMap) (bag : List (String × GoVal)) (k : String),
      k ∈ collectedDropParams params bag →
      mergeAdditionalParams params bag k = none) ∧
    (∀ (f : ModelFields) (bag : List (String × GoVal)) (k : String),
      f.additional_litellm_params = some bag →
      k ∈ collectedDropParams (buildBaseLitellmParams f) bag →
      buildLitellmParams f k = none) := by
  refine ⟨?_, ?_, ?_⟩
  · intro params bag k s hnd hmem hk hdrop
    unfold mergeAdditionalParams
    have hdrop2 : k ∉ (bag.foldl mergeBagEntry (params, [])).2 := hdrop
    rw [foldl_mapDelete_not_mem _ _ _ hdrop2]
    exact foldl_mergeBagEntry_value bag (params, []) k s hnd hmem hk
  · intro params bag k hdrop
    unfold mergeAdditionalParams
    exact foldl_mapDelete_mem _ _ _ hdrop
  · intro f bag k hf hdrop
    unfold buildLitellmParams
    rw [hf]
    unfold mergeAdditionalParams
    exact foldl_mapDelete_mem _ _ _ hdrop

/-- A concrete additional-params bag: one ordinary value, the reserved
drop list, and a key that the drop list removes. -/
def sampleBag : List (String × GoVal) :=
  [("temperature", GoVal.vstr "0.7"),
   ("additional_drop_params", GoVal.vstr "[\"frequency_penalty\"]"),
   ("frequency_penalty", GoVal.vstr "1")]

/-- `sampleFields` with `additional_litellm_params` set to `sampleBag`. -/
def sampleFieldsWithBag : ModelFields :=
  { sampleFields with additional_litellm_params := some sampleBag }

theorem additional_params_coercion_and_drops_witness :
    mergeAdditionalParams mapEmpty sampleBag "temperature" =
      some (convertAdditionalParamValue "0.7") ∧
    mergeAdditionalParams mapEmpty sampleBag "frequency_penalty" = none ∧
    buildLitellmParams sampleFieldsWithBag "frequency_penalty" = none :=
  ⟨additional_params_coercion_and_drops.1 mapEmpty sampleBag "temperature" "0.7"
      (by decide) (List.Mem.head _) (by decide) (by decide),
    additional_params_coercion_and_drops.2.1 mapEmpty sampleBag "frequency_penalty"
      (by decide),
    additional_params_coercion_and_drops.2.2 sampleFieldsWithBag sampleBag
      "frequency_penalty" rfl (by decide)⟩

end LitellmProvider
